import Mathlib

/-!
Verification development for the `web_scr` real-estate data collector.

The repository queries an external answering service for facts about a named
residential project, coerces the loosely structured textual response into a
fixed 15-field record, and appends each record to a CSV table whose column set
is self-healing.  This file gives a shallow embedding of the core data model
and operations (`src/utils/perplexity_api.py`, `src/utils/data_writer.py`,
`src/app.py`) and proves properties about them.  The network is abstracted by
an oracle supplying the outcome of each remote attempt; everything downstream
of the raw response text is modelled directly from the source.
-/

/-- Values of the Python `json` module's data model, as returned by
`json.loads`: `None`, booleans, numbers (kept as their source lexeme, since no
property here depends on numeric value), strings, lists and string-keyed
dictionaries. -/
inductive Jval where
  | null
  | bool (b : Bool)
  | num (lexeme : String)
  | str (s : String)
  | arr (elems : List Jval)
  | obj (fields : List (String × Jval))

/-- A Python dictionary with string keys, in insertion order (the shape of a
parsed JSON object and of every record in the pipeline). -/
abbrev Record := List (String × Jval)

/-- Python `key in d`. -/
def dictContains (r : Record) (k : String) : Bool :=
  r.any (fun p => p.fst == k)

/-- Python `d.get(key)` (`None` when absent). -/
def dictGet? (r : Record) (k : String) : Option Jval :=
  (r.find? (fun p => p.fst == k)).map (fun p => p.snd)

/-- Python `d[key] = v`: replace the value in place if the key exists,
otherwise append the binding at the end (dict insertion order). -/
def dictSet (r : Record) (k : String) (v : Jval) : Record :=
  if dictContains r k then
    r.map (fun p => if p.fst == k then (k, v) else p)
  else r ++ [(k, v)]

/-- Python `d.setdefault(key, v)`: insert only when the key is absent. -/
def dictSetdefault (r : Record) (k : String) (v : Jval) : Record :=
  if dictContains r k then r else r ++ [(k, v)]

/-- The double-quote character. -/
def quoteC : Char := Char.ofNat 34

/-- The single-quote character. -/
def apostC : Char := Char.ofNat 39

/-- The backslash character. -/
def backslashC : Char := Char.ofNat 92

/-- The backtick character. -/
def backtickC : Char := Char.ofNat 96

/-- The sentinel used for every unknown field (`"Information not available"`
throughout the source). -/
def sentinelStr : String := "Information not available"

/-- The Field Schema: `get_required_fields` from `data_writer.py` (duplicated
verbatim in `perplexity_api.py`) — the canonical ordered list of the 15 CSV
columns. -/
def get_required_fields : List String :=
  [ "Project Name",
    "Project Price per SFT",
    "total Price",
    "Possession (Year & Month)",
    "Location",
    "Builder Reputation & Legal Compliance",
    "Property Type & Space Utilization",
    "Open Space",
    "Safety & Security",
    "Quality of Construction",
    "Home Loan & Financing Options",
    "Orientation",
    "Configuration (2BHK, 3BHK, etc.)",
    "Source URLs",
    "Why" ]

mutual
/-- Python `repr` on JSON-shaped values (approximated: strings are wrapped in
single quotes without inner escaping; only used for values nested inside
containers when flattening, which no record in this development exercises). -/
def pyRepr : Jval → String
  | .null => "None"
  | .bool b => if b then "True" else "False"
  | .num lx => lx
  | .str s => String.mk (apostC :: s.data) ++ String.mk [apostC]
  | .arr xs => "[" ++ String.intercalate ", " (pyReprList xs) ++ "]"
  | .obj fs => String.mk [Char.ofNat 123] ++ String.intercalate ", " (pyReprFields fs)
      ++ String.mk [Char.ofNat 125]

/-- Helper of `pyRepr` for list elements. -/
def pyReprList : List Jval → List String
  | [] => []
  | v :: vs => pyRepr v :: pyReprList vs

/-- Helper of `pyRepr` for dictionary items. -/
def pyReprFields : List (String × Jval) → List String
  | [] => []
  | (k, v) :: fs =>
      (String.mk (apostC :: k.data) ++ String.mk [apostC] ++ ": " ++ pyRepr v)
        :: pyReprFields fs
end

/-- Python `str` on JSON-shaped values: identity on strings, `repr`-style
rendering on containers, `True`/`False`/`None` on the rest. -/
def pyStr (v : Jval) : String :=
  match v with
  | .str s => s
  | _ => pyRepr v

/-- Whitespace per Python `str.strip()` (ASCII part). -/
def isPySpace (c : Char) : Bool :=
  c == ' ' || c == '\t' || c == '\n' || c == '\r' || c == Char.ofNat 11 || c == Char.ofNat 12

/-- Python `s.strip()`. -/
def pyStrip (s : String) : String :=
  String.mk (((s.data.dropWhile isPySpace).reverse.dropWhile isPySpace).reverse)

/-- Python `s.strip("x")` for a single strip character. -/
def pyStripChar (s : String) (c : Char) : String :=
  String.mk (((s.data.dropWhile (· == c)).reverse.dropWhile (· == c)).reverse)

/-- Whitespace accepted between JSON tokens (the `json` module's
`_w = [ \t\n\r]*`). -/
def isJsonWs (c : Char) : Bool :=
  c == ' ' || c == '\t' || c == '\n' || c == '\r'

/-- Drop leading JSON whitespace. -/
def skipWs : List Char → List Char
  | [] => []
  | c :: cs => if isJsonWs c then skipWs cs else c :: cs

/-- Value of a hexadecimal digit. -/
def hexVal (c : Char) : Option Nat :=
  if 48 ≤ c.toNat ∧ c.toNat ≤ 57 then some (c.toNat - 48)
  else if 97 ≤ c.toNat ∧ c.toNat ≤ 102 then some (c.toNat - 87)
  else if 65 ≤ c.toNat ∧ c.toNat ≤ 70 then some (c.toNat - 55)
  else none

/-- Body of a JSON string literal, after the opening quote: ordinary
characters, the escape sequences of the JSON grammar, and (strict mode)
rejection of raw control characters.  Returns the decoded string and the
remaining input. -/
def parseStringBody : Nat → List Char → List Char → Option (String × List Char)
  | 0, _, _ => none
  | _, [], _ => none
  | fuel + 1, c :: rest, acc =>
    if c == quoteC then some (String.mk acc.reverse, rest)
    else if c == backslashC then
      match rest with
      | [] => none
      | e :: rest2 =>
        if e == quoteC then parseStringBody fuel rest2 (quoteC :: acc)
        else if e == backslashC then parseStringBody fuel rest2 (backslashC :: acc)
        else if e == '/' then parseStringBody fuel rest2 ('/' :: acc)
        else if e == 'b' then parseStringBody fuel rest2 (Char.ofNat 8 :: acc)
        else if e == 'f' then parseStringBody fuel rest2 (Char.ofNat 12 :: acc)
        else if e == 'n' then parseStringBody fuel rest2 ('\n' :: acc)
        else if e == 'r' then parseStringBody fuel rest2 ('\r' :: acc)
        else if e == 't' then parseStringBody fuel rest2 ('\t' :: acc)
        else if e == 'u' then
          match rest2 with
          | h1 :: h2 :: h3 :: h4 :: rest3 =>
            match hexVal h1, hexVal h2, hexVal h3, hexVal h4 with
            | some a, some b, some c2, some d =>
                parseStringBody fuel rest3 (Char.ofNat (((a * 16 + b) * 16 + c2) * 16 + d) :: acc)
            | _, _, _, _ => none
          | _ => none
        else none
    else if c.toNat < 32 then none
    else parseStringBody fuel rest (c :: acc)

/-- A JSON number token (the `json` module's `NUMBER_RE`): optional sign,
integer part without leading zeros, optional fraction, optional exponent.
Returns the lexeme and the remaining input; a malformed tail (e.g. `1.`) is
left unconsumed, so the surrounding parse fails on the leftover. -/
def parseNumber (cs : List Char) : Option (String × List Char) :=
  let signed := cs.head? == some '-'
  let sign : List Char := if signed then [Char.ofNat 45] else []
  let cs1 := if signed then cs.tail else cs
  let intPart := cs1.takeWhile Char.isDigit
  let cs2 := cs1.drop intPart.length
  if intPart.isEmpty then none
  else if intPart.head? == some '0' && intPart.length > 1 then none
  else
    let hasFrac := cs2.head? == some '.' && !(((cs2.tail).takeWhile Char.isDigit).isEmpty)
    let fracDigits := (cs2.tail).takeWhile Char.isDigit
    let fracPart : List Char := if hasFrac then '.' :: fracDigits else []
    let cs3 := if hasFrac then (cs2.tail).drop fracDigits.length else cs2
    let hasE := cs3.head? == some 'e' || cs3.head? == some 'E'
    let afterE := cs3.tail
    let hasESign := afterE.head? == some '+' || afterE.head? == some '-'
    let expDigitsStart := if hasESign then afterE.tail else afterE
    let expDigits := expDigitsStart.takeWhile Char.isDigit
    let hasExp := hasE && !expDigits.isEmpty
    let expPart : List Char :=
      if hasExp then
        (cs3.take 1) ++ (if hasESign then afterE.take 1 else []) ++ expDigits
      else []
    let cs4 := if hasExp then expDigitsStart.drop expDigits.length else cs3
    some (String.mk (sign ++ intPart ++ fracPart ++ expPart), cs4)

mutual
/-- Recursive-descent parse of one JSON value (the semantics of the `json`
module's scanner), fuelled by the input length. -/
def parseValue : Nat → List Char → Option (Jval × List Char)
  | 0, _ => none
  | fuel + 1, cs =>
    match skipWs cs with
    | [] => none
    | c :: rest =>
      if c == quoteC then
        match parseStringBody (rest.length + 1) rest [] with
        | some (s, r) => some (.str s, r)
        | none => none
      else if c == '{' then
        match skipWs rest with
        | '}' :: r => some (.obj [], r)
        | other => parseMembers fuel other []
      else if c == '[' then
        match skipWs rest with
        | ']' :: r => some (.arr [], r)
        | other => parseItems fuel other []
      else if c == 't' then
        match rest with
        | 'r' :: 'u' :: 'e' :: r => some (.bool true, r)
        | _ => none
      else if c == 'f' then
        match rest with
        | 'a' :: 'l' :: 's' :: 'e' :: r => some (.bool false, r)
        | _ => none
      else if c == 'n' then
        match rest with
        | 'u' :: 'l' :: 'l' :: r => some (.null, r)
        | _ => none
      else
        match parseNumber (c :: rest) with
        | some (lx, r) => some (.num lx, r)
        | none => none

/-- Members of a JSON object after `{` (first member onward); a repeated key
overwrites the earlier value, as for a Python dict. -/
def parseMembers : Nat → List Char → List (String × Jval) → Option (Jval × List Char)
  | 0, _, _ => none
  | fuel + 1, cs, acc =>
    match skipWs cs with
    | [] => none
    | c :: rest =>
      if c == quoteC then
        match parseStringBody (rest.length + 1) rest [] with
        | none => none
        | some (k, r1) =>
          match skipWs r1 with
          | ':' :: r2 =>
            match parseValue fuel r2 with
            | none => none
            | some (v, r3) =>
              let acc2 := dictSet acc k v
              match skipWs r3 with
              | ',' :: r4 => parseMembers fuel r4 acc2
              | '}' :: r4 => some (.obj acc2, r4)
              | _ => none
          | _ => none
      else none

/-- Items of a JSON array after `[` (first item onward). -/
def parseItems : Nat → List Char → List Jval → Option (Jval × List Char)
  | 0, _, _ => none
  | fuel + 1, cs, acc =>
    match parseValue fuel cs with
    | none => none
    | some (v, r) =>
      match skipWs r with
      | ',' :: r2 => parseItems fuel r2 (acc ++ [v])
      | ']' :: r2 => some (.arr (acc ++ [v]), r2)
      | _ => none
end

/-- Python `json.loads`: parse one value and require only whitespace after it
(`Extra data` otherwise); on any violation of the grammar the call raises
`JSONDecodeError`, modelled as `none`. -/
def jsonLoads (s : String) : Option Jval :=
  match parseValue (s.data.length + 1) s.data with
  | some (v, rest) => if (skipWs rest).isEmpty then some v else none
  | none => none

/-- Word characters of the regex class `\w` (ASCII part: letters, digits,
underscore). -/
def isWordChar (c : Char) : Bool :=
  c.isAlphanum || c == '_'

/-- Whitespace of the regex class `\s` (ASCII part). -/
def isReSpace (c : Char) : Bool :=
  c == ' ' || c == '\t' || c == '\n' || c == '\r' || c == Char.ofNat 11 || c == Char.ofNat 12

/-- First pass of `fix_json_string`:
`re.sub(r'([{,])\s*(\w+):', r'\1"\2":', s)`.  A left-to-right scan for a
brace-or-comma, optional whitespace, a bare word and a colon; the whole match
is replaced by the brace-or-comma and the word wrapped in double quotes (the
matched whitespace is dropped, as it is absent from the replacement).
Fuelled by the input length; matches do not overlap, and scanning resumes
after each replacement. -/
def quoteKeysGo : Nat → List Char → List Char
  | 0, cs => cs
  | _, [] => []
  | fuel + 1, c :: rest =>
    if c == '{' || c == ',' then
      let ws := rest.takeWhile isReSpace
      let afterWs := rest.drop ws.length
      let word := afterWs.takeWhile isWordChar
      let afterWord := afterWs.drop word.length
      if !word.isEmpty && afterWord.head? == some ':' then
        c :: quoteC :: (word ++ (quoteC :: ':' :: quoteKeysGo fuel afterWord.tail))
      else c :: quoteKeysGo fuel rest
    else c :: quoteKeysGo fuel rest

/-- Second pass of `fix_json_string`: `s.replace("'", '"')`. -/
def apostToQuote (cs : List Char) : List Char :=
  cs.map (fun c => if c == apostC then quoteC else c)

/-- The lookahead `(?=(.*?".*?)*?$)` of the third pass, tested on the text
following a matched quote: it succeeds exactly when the remainder (minus one
final newline, where `$` may also match) is empty, or is newline-free and
still contains a double quote. -/
def quoteAheadLookahead (rest : List Char) : Bool :=
  let core := if rest.getLast? == some '\n' then rest.dropLast else rest
  core.isEmpty || (core.contains quoteC && !(core.contains '\n'))

/-- Third pass of `fix_json_string`:
`re.sub(r'(?<!\\)"(?=(.*?".*?)*?$)', r'\"', s)` — every double quote not
preceded by a backslash whose lookahead succeeds is replaced by a
backslash-quote pair.  `prev` is the character preceding the scan position in
the input. -/
def escapeQuotesGo (prev : Option Char) : List Char → List Char
  | [] => []
  | c :: rest =>
    if c == quoteC && !(prev == some backslashC) && quoteAheadLookahead rest then
      backslashC :: quoteC :: escapeQuotesGo (some c) rest
    else c :: escapeQuotesGo (some c) rest

/-- The repair pass `fix_json_string` of `perplexity_api.py`: quote bare
object keys, turn single quotes into double quotes, then apply the
quote-escaping substitution. -/
def fix_json_string (s : String) : String :=
  String.mk (escapeQuotesGo none (apostToQuote (quoteKeysGo (s.data.length + 1) s.data)))

/-- Outcome of one remote attempt, as observed by the retry loop of
`get_info_from_perplexity`: either some step before content extraction raised
(transport error, non-2xx status, missing answer field — `str(e)` is the
message), or a content string was extracted from the response. -/
inductive AttemptOutcome where
  | raises (msg : String)
  | content (s : String)

/-- Fill every Field Schema key that is absent, with the sentinel (the
`setdefault` loops of `perplexity_api.py`). -/
def set_defaults (r : Record) (ks : List String) : Record :=
  ks.foldl (fun acc k => dictSetdefault acc k (Jval.str sentinelStr)) r

/-- The Fallback Record constructed after the final attempt fails: original
name, the exception's description, an empty source-URL list, and the sentinel
for every other schema field. -/
def fallback_record (name : String) (e : String) : Record :=
  set_defaults
    [("Project Name", Jval.str name), ("error", Jval.str e), ("Source URLs", Jval.arr [])]
    get_required_fields

/-- Python `s.startswith("```")`: the character list starts with three
backticks. -/
def startsWithFence (s : String) : Bool :=
  [backtickC, backtickC, backtickC].isPrefixOf s.data

/-- The parsing steps applied to one attempt's content string: strip the
content, drop surrounding backticks when it starts with a code fence,
`json.loads` it, and retry the parse through `fix_json_string` on failure. -/
def parse_content (raw : String) : Option Jval :=
  let c0 := pyStrip raw
  let content := if startsWithFence c0 then pyStrip (pyStripChar c0 backtickC) else c0
  match jsonLoads content with
  | some v => some v
  | none => jsonLoads (fix_json_string content)

/-- One attempt of the `get_info_from_perplexity` retry loop, from the
attempt's outcome to either a normalized record or the description of the
exception that the attempt raised: parse the content, then force the project
name back to the caller's and fill missing schema fields with the sentinel.
A parse failure (even after repair) raises `JSONDecodeError`; item assignment
on a parsed non-dict raises `TypeError`. -/
def attempt_result : String → AttemptOutcome → Except String Record
  | _, .raises msg => .error msg
  | name, .content raw =>
    match parse_content raw with
    | none => .error "JSONDecodeError"
    | some (.obj fields) =>
        .ok (set_defaults (dictSet fields "Project Name" (Jval.str name)) get_required_fields)
    | some _ => .error "TypeError"

/-- `max_retries` of the acquisition client. -/
def maxRetries : Nat := 3

/-- The retry loop of `get_info_from_perplexity` over the remaining attempt
numbers (`for attempt in range(max_retries)`), threading the current backoff
delay and the list of sleeps performed so far.  A successful attempt returns
its record; a failed attempt before the last sleeps for `delay` and doubles
it; the last failed attempt returns the Fallback Record.  The empty-list case
is unreachable from `range(3)`, since the final iteration always returns. -/
def getInfoGo (name : String) (oracle : Nat → AttemptOutcome) :
    List Nat → Nat → List Nat → Record × List Nat
  | [], _, sleeps => (fallback_record name "", sleeps)
  | attempt :: restAttempts, delay, sleeps =>
    match attempt_result name (oracle attempt) with
    | .ok r => (r, sleeps)
    | .error e =>
      if attempt < maxRetries - 1 then
        getInfoGo name oracle restAttempts (delay * 2) (sleeps ++ [delay])
      else (fallback_record name e, sleeps)

/-- `get_info_from_perplexity`, abstracted over the per-attempt outcomes:
returns the record handed to the caller together with the sleeps performed
between failed attempts (initial delay 5, doubling). -/
def get_info_from_perplexity (name : String) (oracle : Nat → AttemptOutcome) :
    Record × List Nat :=
  getInfoGo name oracle (List.range maxRetries) 5 []

/-- The on-disk CSV table: a header line and the data rows, each a list of
cell strings. -/
structure CsvFile where
  header : List String
  rows : List (List String)

/-- `ensure_csv_structure` of `data_writer.py` on the state of the output
path (`none` when no file exists): create the file with the schema header, or
read it, and when schema columns are missing append them to the header and
fill them with the sentinel in every existing row, rewriting the file. -/
def ensure_csv_structure : Option CsvFile → CsvFile
  | none => { header := get_required_fields, rows := [] }
  | some f =>
    let missing := get_required_fields.filter (fun c => !(f.header.contains c))
    if missing.isEmpty then f
    else
      { header := f.header ++ missing,
        rows := f.rows.map (fun r => r ++ missing.map (fun _ => sentinelStr)) }

/-- One cell of `_flatten`: dict values become `", "`-joined `key: value`
pairs, list values `", "`-joined stringified items, anything else `str`. -/
def flattenCell (v : Jval) : String :=
  match v with
  | .obj fs => String.intercalate ", " (fs.map (fun p => p.fst ++ ": " ++ pyStr p.snd))
  | .arr xs => String.intercalate ", " (xs.map pyStr)
  | _ => pyStr v

/-- `_flatten` of `data_writer.py`: one `key → cell` pair per Field Schema
key (and none else), reading absent keys as the sentinel. -/
def flattenDict (r : Record) : List (String × String) :=
  get_required_fields.map
    (fun k => (k, flattenCell ((dictGet? r k).getD (Jval.str sentinelStr))))

/-- The CSV row that `csv.DictWriter(fieldnames=get_required_fields())`
emits for a flattened record: the cells in Field Schema order. -/
def flattenRow (r : Record) : List String :=
  (flattenDict r).map (fun p => p.snd)

/-- `write_to_csv` of `data_writer.py`: run `ensure_csv_structure`, then
append the flattened row (prior rows untouched). -/
def write_to_csv (row : Record) (fs : Option CsvFile) : CsvFile :=
  let f := ensure_csv_structure fs
  { f with rows := f.rows ++ [flattenRow row] }

/-- The persistent state the orchestrator writes to: the results table and
the error log (as `(project name, message)` pairs; the wall-clock timestamp
column is not modelled). -/
structure Store where
  table : Option CsvFile
  errLog : List (String × String)

/-- The store before any run: no results file, empty error log. -/
def store0 : Store := { table := none, errLog := [] }

/-- Result dictionary of `process_single_project`: the status string, the
optional message, and the record that was saved. -/
structure SingleResult where
  status : String
  message : Option Jval
  data : Record

/-- `process_single_project` of `app.py`: fetch the record, test for the
`"error"` key, save the record to the table in every case, and on an error
key also log it and report a `"partial"` status.  The source's non-dict
branch and generic exception handler (both yielding status `"error"`) are
unreachable here: `get_info_from_perplexity` always returns a dict and the
modelled store operations do not raise. -/
def process_single_project (name : String) (oracle : Nat → AttemptOutcome)
    (st : Store) : SingleResult × Store :=
  let response := (get_info_from_perplexity name oracle).fst
  let hasError := dictContains response "error"
  let st1 : Store := { st with table := some (write_to_csv response st.table) }
  if hasError then
    let errMsg := (dictGet? response "error").getD (Jval.str "Unknown error")
    let st2 : Store := { st1 with errLog := st1.errLog ++ [(name, pyStr errMsg)] }
    ({ status := "partial", message := some errMsg, data := response }, st2)
  else
    ({ status := "success", message := none, data := response }, st1)

/-- One line of the orchestrator's per-item report. -/
structure Detail where
  projectName : String
  status : String
  message : Jval

/-- The summary dictionary built by `process_project_list`. -/
structure Summary where
  succCount : Nat
  partCount : Nat
  failCount : Nat
  details : List Detail

/-- Loop body of `process_project_list`: strip each name, skip empties,
process the rest in order, bump exactly one counter by the status, and append
one detail line.  The oracle is indexed by the position of the acquisition
call, and the returned list of names records those calls in order. -/
def processListGo (oracle : Nat → Nat → AttemptOutcome) :
    List String → Nat → Summary → Store → List String → Summary × Store × List String
  | [], _, summ, st, calls => (summ, st, calls)
  | n :: rest, idx, summ, st, calls =>
    let name := pyStrip n
    if name == "" then processListGo oracle rest idx summ st calls
    else
      let pr := process_single_project name (oracle idx) st
      let res := pr.fst
      let st2 := pr.snd
      let s1 : Summary :=
        if res.status == "success" then { summ with succCount := summ.succCount + 1 }
        else if res.status == "partial" then { summ with partCount := summ.partCount + 1 }
        else { summ with failCount := summ.failCount + 1 }
      let s2 : Summary :=
        { s1 with details := s1.details ++
            [{ projectName := name, status := res.status,
               message := res.message.getD (Jval.str "Success") }] }
      processListGo oracle rest (idx + 1) s2 st2 (calls ++ [name])

/-- `process_project_list` of `app.py`: ensure the results file, then fold
the loop body over the input names starting from zeroed counters. -/
def process_project_list (names : List String) (oracle : Nat → Nat → AttemptOutcome)
    (st : Store) : Summary × Store × List String :=
  let st1 : Store := { st with table := some (ensure_csv_structure st.table) }
  processListGo oracle names 0
    { succCount := 0, partCount := 0, failCount := 0, details := [] } st1 []

/-- Test that a record carries every Field Schema key. -/
def allRequired (r : Record) : Bool :=
  get_required_fields.all (fun k => dictContains r k)

/-- Sentinel test on an optional looked-up value. -/
def isSentinel (v : Option Jval) : Bool :=
  match v with
  | some (.str s) => s == sentinelStr
  | _ => false

theorem dictContains_setdefault_of_contains (r : Record) (k k' : String) (v : Jval)
    (h : dictContains r k = true) : dictContains (dictSetdefault r k' v) k = true := by
  unfold dictSetdefault
  split
  · exact h
  · simp only [dictContains, List.any_append] at *
    simp [h]

theorem dictContains_setdefault_self (r : Record) (k : String) (v : Jval) :
    dictContains (dictSetdefault r k v) k = true := by
  unfold dictSetdefault
  split
  · assumption
  · simp [dictContains, List.any_append]

theorem dictContains_set_defaults (ks : List String) (r : Record) (k : String)
    (h : k ∈ ks ∨ dictContains r k = true) :
    dictContains (set_defaults r ks) k = true := by
  induction ks generalizing r with
  | nil =>
    rcases h with h | h
    · cases h
    · simpa [set_defaults] using h
  | cons k' ks' ih =>
    have step : set_defaults r (k' :: ks')
        = set_defaults (dictSetdefault r k' (Jval.str sentinelStr)) ks' := rfl
    rw [step]
    rcases h with h | h
    · rcases List.mem_cons.mp h with h | h
      · subst h
        exact ih _ (Or.inr (dictContains_setdefault_self r k _))
      · exact ih _ (Or.inl h)
    · exact ih _ (Or.inr (dictContains_setdefault_of_contains r k k' _ h))

theorem allRequired_set_defaults (r : Record) :
    allRequired (set_defaults r get_required_fields) = true := by
  simp only [allRequired, List.all_eq_true]
  intro k hk
  exact dictContains_set_defaults get_required_fields r k (Or.inl hk)

theorem allRequired_fallback (name e : String) :
    allRequired (fallback_record name e) = true :=
  allRequired_set_defaults _

/-- Test whether a value is a Python dict (a parsed JSON object). -/
def isObjB : Jval → Bool
  | .obj _ => true
  | _ => false

theorem attempt_result_content_obj (name raw : String) (fields : Record)
    (hv : parse_content raw = some (.obj fields)) :
    attempt_result name (.content raw)
      = .ok (set_defaults (dictSet fields "Project Name" (Jval.str name))
          get_required_fields) := by
  simp only [attempt_result]
  rw [hv]

theorem attempt_result_content_none (name raw : String)
    (hv : parse_content raw = none) :
    attempt_result name (.content raw) = .error "JSONDecodeError" := by
  simp only [attempt_result]
  rw [hv]

theorem attempt_result_content_not_obj (name raw : String) (v : Jval)
    (hv : parse_content raw = some v) (hno : isObjB v = false) :
    attempt_result name (.content raw) = .error "TypeError" := by
  simp only [attempt_result]
  rw [hv]
  cases v
  case obj fields => exact absurd hno (by simp [isObjB])
  all_goals rfl

theorem allRequired_attempt_ok (name : String) (o : AttemptOutcome) (r : Record)
    (h : attempt_result name o = .ok r) : allRequired r = true := by
  cases o with
  | raises msg =>
    rw [show attempt_result name (.raises msg) = .error msg from rfl] at h
    cases h
  | content raw =>
    cases hv : parse_content raw with
    | none =>
      rw [attempt_result_content_none name raw hv] at h
      cases h
    | some v =>
      cases hobj : isObjB v with
      | false =>
        rw [attempt_result_content_not_obj name raw v hv hobj] at h
        cases h
      | true =>
        cases v with
        | obj fields =>
          rw [attempt_result_content_obj name raw fields hv] at h
          rw [Except.ok.injEq] at h
          subst h
          exact allRequired_set_defaults _
        | null => cases hobj
        | bool b => cases hobj
        | num lx => cases hobj
        | str s => cases hobj
        | arr xs => cases hobj

theorem getInfoGo_nil (name : String) (oracle : Nat → AttemptOutcome)
    (delay : Nat) (sleeps : List Nat) :
    getInfoGo name oracle [] delay sleeps = (fallback_record name "", sleeps) := rfl

theorem getInfoGo_cons_ok (name : String) (oracle : Nat → AttemptOutcome)
    (a : Nat) (rest : List Nat) (delay : Nat) (sleeps : List Nat) (r : Record)
    (h : attempt_result name (oracle a) = .ok r) :
    getInfoGo name oracle (a :: rest) delay sleeps = (r, sleeps) := by
  simp only [getInfoGo]
  rw [h]

theorem getInfoGo_cons_err (name : String) (oracle : Nat → AttemptOutcome)
    (a : Nat) (rest : List Nat) (delay : Nat) (sleeps : List Nat) (e : String)
    (h : attempt_result name (oracle a) = .error e) :
    getInfoGo name oracle (a :: rest) delay sleeps
      = if a < maxRetries - 1 then
          getInfoGo name oracle rest (delay * 2) (sleeps ++ [delay])
        else (fallback_record name e, sleeps) := by
  simp only [getInfoGo]
  rw [h]

theorem getInfoGo_nil_fst (name : String) (oracle : Nat → AttemptOutcome)
    (delay : Nat) (sleeps : List Nat) :
    (getInfoGo name oracle [] delay sleeps).fst = fallback_record name "" := by
  rw [getInfoGo_nil]

theorem getInfoGo_cons_ok_fst (name : String) (oracle : Nat → AttemptOutcome)
    (a : Nat) (rest : List Nat) (delay : Nat) (sleeps : List Nat) (r : Record)
    (h : attempt_result name (oracle a) = .ok r) :
    (getInfoGo name oracle (a :: rest) delay sleeps).fst = r := by
  rw [getInfoGo_cons_ok name oracle a rest delay sleeps r h]

theorem getInfoGo_cons_err_retry_fst (name : String) (oracle : Nat → AttemptOutcome)
    (a : Nat) (rest : List Nat) (delay : Nat) (sleeps : List Nat) (e : String)
    (h : attempt_result name (oracle a) = .error e) (ha : a < maxRetries - 1) :
    (getInfoGo name oracle (a :: rest) delay sleeps).fst
      = (getInfoGo name oracle rest (delay * 2) (sleeps ++ [delay])).fst := by
  rw [getInfoGo_cons_err name oracle a rest delay sleeps e h, if_pos ha]

theorem getInfoGo_cons_err_last_fst (name : String) (oracle : Nat → AttemptOutcome)
    (a : Nat) (rest : List Nat) (delay : Nat) (sleeps : List Nat) (e : String)
    (h : attempt_result name (oracle a) = .error e) (ha : ¬ a < maxRetries - 1) :
    (getInfoGo name oracle (a :: rest) delay sleeps).fst = fallback_record name e := by
  rw [getInfoGo_cons_err name oracle a rest delay sleeps e h, if_neg ha]

/-- C1: for every input name and every outcome of the remote call
(successful parse, repaired parse, or exhausted retries), the record returned
by `get_info_from_perplexity` contains all 15 Field Schema keys — its key set
is a superset of the Field Schema. -/
theorem get_info_always_has_required_fields (name : String) (oracle : Nat → AttemptOutcome) :
    allRequired (get_info_from_perplexity name oracle).fst = true := by
  have go : ∀ (attempts : List Nat) (delay : Nat) (sleeps : List Nat),
      allRequired (getInfoGo name oracle attempts delay sleeps).fst = true := by
    intro attempts
    induction attempts with
    | nil =>
      intro delay sleeps
      rw [getInfoGo_nil_fst]
      exact allRequired_fallback name ""
    | cons a rest ih =>
      intro delay sleeps
      cases h : attempt_result name (oracle a) with
      | ok r =>
        rw [getInfoGo_cons_ok_fst name oracle a rest delay sleeps r h]
        exact allRequired_attempt_ok name (oracle a) r h
      | error e =>
        by_cases ha : a < maxRetries - 1
        · rw [getInfoGo_cons_err_retry_fst name oracle a rest delay sleeps e h ha]
          exact ih (delay * 2) (sleeps ++ [delay])
        · rw [getInfoGo_cons_err_last_fst name oracle a rest delay sleeps e h ha]
          exact allRequired_fallback name e
  have hrange : get_info_from_perplexity name oracle
      = getInfoGo name oracle (List.range maxRetries) 5 [] := rfl
  rw [hrange]
  exact go (List.range maxRetries) 5 []

theorem fallback_record_unfold (name e : String) :
    fallback_record name e =
      [ ("Project Name", Jval.str name),
        ("error", Jval.str e),
        ("Source URLs", Jval.arr []),
        ("Project Price per SFT", Jval.str sentinelStr),
        ("total Price", Jval.str sentinelStr),
        ("Possession (Year & Month)", Jval.str sentinelStr),
        ("Location", Jval.str sentinelStr),
        ("Builder Reputation & Legal Compliance", Jval.str sentinelStr),
        ("Property Type & Space Utilization", Jval.str sentinelStr),
        ("Open Space", Jval.str sentinelStr),
        ("Safety & Security", Jval.str sentinelStr),
        ("Quality of Construction", Jval.str sentinelStr),
        ("Home Loan & Financing Options", Jval.str sentinelStr),
        ("Orientation", Jval.str sentinelStr),
        ("Configuration (2BHK, 3BHK, etc.)", Jval.str sentinelStr),
        ("Why", Jval.str sentinelStr) ] := by
  simp [fallback_record, set_defaults, dictSetdefault, dictContains, get_required_fields,
    sentinelStr]

/-- C2: when all three attempts fail, `get_info_from_perplexity` returns the
Fallback Record (never raising): project name preserved, the `error` field
holding the last exception's description, `Source URLs` the empty sequence,
the 13 remaining Field Schema fields all the sentinel, and the delays slept
between failed attempts doubling from 5. -/
theorem get_info_fallback_after_three_failures (name : String)
    (oracle : Nat → AttemptOutcome) (e0 e1 e2 : String)
    (h0 : attempt_result name (oracle 0) = .error e0)
    (h1 : attempt_result name (oracle 1) = .error e1)
    (h2 : attempt_result name (oracle 2) = .error e2) :
    get_info_from_perplexity name oracle = (fallback_record name e2, [5, 10])
      ∧ dictGet? (fallback_record name e2) "Project Name" = some (Jval.str name)
      ∧ dictGet? (fallback_record name e2) "error" = some (Jval.str e2)
      ∧ dictGet? (fallback_record name e2) "Source URLs" = some (Jval.arr [])
      ∧ ((get_required_fields.filter
            (fun k => k != "Project Name" && k != "Source URLs")).all
          (fun k => isSentinel (dictGet? (fallback_record name e2) k)) = true) := by
  have hrange : get_info_from_perplexity name oracle
      = getInfoGo name oracle [0, 1, 2] 5 [] := rfl
  have hlt01 : (0 : Nat) < maxRetries - 1 := by norm_num [maxRetries]
  have hlt11 : (1 : Nat) < maxRetries - 1 := by norm_num [maxRetries]
  have hlt2 : ¬ (2 : Nat) < maxRetries - 1 := by norm_num [maxRetries]
  refine ⟨?_, ?_, ?_, ?_, ?_⟩
  · rw [hrange]
    rw [getInfoGo_cons_err name oracle 0 [1, 2] 5 [] e0 h0, if_pos hlt01]
    rw [getInfoGo_cons_err name oracle 1 [2] _ _ e1 h1, if_pos hlt11]
    rw [getInfoGo_cons_err name oracle 2 [] _ _ e2 h2, if_neg hlt2]
    simp
  · rw [fallback_record_unfold]
    rfl
  · rw [fallback_record_unfold]
    rfl
  · rw [fallback_record_unfold]
    rfl
  · rw [fallback_record_unfold]
    rfl

theorem get_info_fallback_after_three_failures_witness :
    get_info_from_perplexity "Lake Vista" (fun _ => AttemptOutcome.raises "timeout")
        = (fallback_record "Lake Vista" "timeout", [5, 10])
      ∧ dictGet? (fallback_record "Lake Vista" "timeout") "Project Name"
          = some (Jval.str "Lake Vista")
      ∧ dictGet? (fallback_record "Lake Vista" "timeout") "error" = some (Jval.str "timeout")
      ∧ dictGet? (fallback_record "Lake Vista" "timeout") "Source URLs" = some (Jval.arr [])
      ∧ ((get_required_fields.filter
            (fun k => k != "Project Name" && k != "Source URLs")).all
          (fun k => isSentinel (dictGet? (fallback_record "Lake Vista" "timeout") k)) = true) :=
  get_info_fallback_after_three_failures "Lake Vista" (fun _ => AttemptOutcome.raises "timeout")
    "timeout" "timeout" "timeout" rfl rfl rfl

/-- A minimal near-JSON input that differs from the valid JSON
`{"a": "b"}` only by using single quotes around strings. -/
def singleQuotedInput : String := "\x7b'a': 'b'\x7d"

/-- The double-quoted form of `singleQuotedInput`. -/
def doubleQuotedForm : String := "\x7b\"a\": \"b\"\x7d"

/-- C3 (evaluation at the failing input): the claim states that the repair
pass turns any near-JSON text that differs from valid JSON only by single
quotes or unquoted keys into text that parses, but the source's third
substitution escapes every double quote that is followed by another one, so
on `{'a': 'b'}` the pass produces `{\"a\": \"b"}`, which does not parse,
while the corresponding double-quoted text does. -/
theorem fix_json_string_breaks_single_quoted_input :
    jsonLoads doubleQuotedForm = some (Jval.obj [("a", Jval.str "b")])
      ∧ fix_json_string singleQuotedInput
          = String.mk ([Char.ofNat 123, backslashC, quoteC, 'a', backslashC, quoteC, ':', ' ',
              backslashC, quoteC, 'b', quoteC, Char.ofNat 125])
      ∧ jsonLoads (fix_json_string singleQuotedInput) = none :=
  ⟨rfl, rfl, rfl⟩

/-- C4 (counterexample): when every attempt fails, the acquisition client
constructs a Fallback Record, yet the orchestrator counts the item as
`"partial"`, not as a failure — refuting the claim that an item is classified
as a failure exactly when a Fallback Record had to be constructed. -/
theorem fallback_record_counted_as_part_status :
    (get_info_from_perplexity "Lake Vista" (fun _ => AttemptOutcome.raises "timeout")).fst
        = fallback_record "Lake Vista" "timeout"
      ∧ (process_single_project "Lake Vista" (fun _ => AttemptOutcome.raises "timeout")
          store0).fst.status = "partial"
      ∧ (process_project_list ["Lake Vista"] (fun _ _ => AttemptOutcome.raises "timeout")
          store0).fst.partCount = 1
      ∧ (process_project_list ["Lake Vista"] (fun _ _ => AttemptOutcome.raises "timeout")
          store0).fst.failCount = 0 :=
  ⟨rfl, rfl, rfl, rfl⟩

/-- C4 (amended): `process_single_project` classifies an item as `"partial"`
exactly when the returned record carries the `"error"` key — which includes
every Fallback Record — and as `"success"` otherwise; the `"error"` status
(the failed counter) is unreachable from the acquisition client, which always
returns a dict. -/
theorem classification_by_error_key (name : String) (oracle : Nat → AttemptOutcome)
    (st : Store) :
    (process_single_project name oracle st).fst.status
      = if dictContains (get_info_from_perplexity name oracle).fst "error" then "partial"
        else "success" := by
  cases h : dictContains (get_info_from_perplexity name oracle).fst "error" <;>
    simp [process_single_project, h]

/-- The partial payload of the Green Meadows scenario:
`{"Project Name": "X", "Location": "Hyderabad"}`. -/
def gmContent : String := "\x7b\"Project Name\": \"X\", \"Location\": \"Hyderabad\"\x7d"

/-- An oracle whose every attempt returns the Green Meadows payload. -/
def gmOracle : Nat → AttemptOutcome := fun _ => AttemptOutcome.content gmContent

/-- C8: when the service returns a well-formed partial payload with no error
field, the record's project name is overwritten with the caller's original
name, the provided field is kept, every other Field Schema field gets the
sentinel, and the orchestrator classifies the outcome as success. -/
theorem green_meadows_scenario :
    dictGet? (get_info_from_perplexity "Green Meadows" gmOracle).fst "Project Name"
        = some (Jval.str "Green Meadows")
      ∧ dictGet? (get_info_from_perplexity "Green Meadows" gmOracle).fst "Location"
          = some (Jval.str "Hyderabad")
      ∧ ((get_required_fields.filter (fun k => k != "Project Name" && k != "Location")).all
          (fun k =>
            isSentinel (dictGet? (get_info_from_perplexity "Green Meadows" gmOracle).fst k))
          = true)
      ∧ (process_single_project "Green Meadows" gmOracle store0).fst.status = "success" :=
  ⟨rfl, rfl, rfl, rfl⟩

theorem ensure_none_eq :
    ensure_csv_structure none = { header := get_required_fields, rows := [] } := rfl

theorem ensure_some_eq (f : CsvFile) :
    ensure_csv_structure (some f)
      = if (get_required_fields.filter (fun c => !(f.header.contains c))).isEmpty then f
        else
          { header := f.header ++ get_required_fields.filter (fun c => !(f.header.contains c)),
            rows := f.rows.map (fun r => r ++
              (get_required_fields.filter (fun c => !(f.header.contains c))).map
                (fun _ => sentinelStr)) } := rfl

theorem ensure_header_complete (fs : Option CsvFile) (c : String)
    (hc : c ∈ get_required_fields) :
    (ensure_csv_structure fs).header.contains c = true := by
  cases fs with
  | none =>
    rw [ensure_none_eq]
    simp [hc]
  | some f =>
    rw [ensure_some_eq]
    by_cases hm : (get_required_fields.filter (fun c => !(f.header.contains c))).isEmpty
    · rw [if_pos hm]
      rw [List.isEmpty_iff, List.filter_eq_nil_iff] at hm
      have := hm c hc
      simpa using this
    · rw [if_neg hm]
      by_cases hf : f.header.contains c = true
      · simp at hf
        simp [hf]
      · have hcm : c ∈ get_required_fields.filter (fun c => !(f.header.contains c)) := by
          rw [List.mem_filter]
          refine ⟨hc, ?_⟩
          simpa using hf
        simp
        right
        simpa using hcm

/-- C5: `ensure_csv_structure` is idempotent — once a call has created the
file or repaired its columns, an immediately repeated call with the unchanged
Field Schema returns the file unchanged. -/
theorem ensure_csv_structure_idempotent (fs : Option CsvFile) :
    ensure_csv_structure (some (ensure_csv_structure fs)) = ensure_csv_structure fs := by
  have hmiss : get_required_fields.filter
      (fun c => !((ensure_csv_structure fs).header.contains c)) = [] := by
    rw [List.filter_eq_nil_iff]
    intro c hc
    have := ensure_header_complete fs c hc
    simp at this
    simp [this]
  rw [ensure_some_eq, hmiss]
  rfl

/-- An existing table whose single column is `Location` (a schema column that
is not first in the Field Schema), with one prior row. -/
def locFile : CsvFile := { header := ["Location"], rows := [["Hyderabad"]] }

/-- A record carrying only a project name. -/
def p1Record : Record := [("Project Name", Jval.str "P1")]

/-- C6 (counterexample): on a table whose header is a schema column that is
not a prefix of the Field Schema, the next append produces a header that is
not in Field Schema order (`Location` stays first), and the appended row's
cells are written in Field Schema order, so its first cell (the project name
`P1`) sits under the `Location` column — the row is not aligned with the
header. -/
theorem append_header_order_violated :
    (write_to_csv p1Record (some locFile)).header ≠ get_required_fields
      ∧ (write_to_csv p1Record (some locFile)).header.head? = some "Location"
      ∧ ((write_to_csv p1Record (some locFile)).rows.getLast?).map (fun r => r.head?)
          = some (some "P1") :=
  ⟨by decide, rfl, rfl⟩

/-- C6 (amended): when the existing header is a proper prefix of the Field
Schema (its first `k < 15` columns), the next `write_to_csv` produces a table
with all 15 columns in Field Schema order, the missing columns
sentinel-filled in every prior row with the existing cells preserved, and the
newly appended row's cells aligned with the header. -/
theorem append_repairs_prefix_header (k : Nat) (hk : k < 15)
    (rows : List (List String)) (record : Record) :
    write_to_csv record (some { header := get_required_fields.take k, rows := rows })
        = { header := get_required_fields,
            rows := rows.map (fun r => r ++ List.replicate (15 - k) sentinelStr)
              ++ [flattenRow record] }
      ∧ (flattenRow record).length = get_required_fields.length := by
  constructor
  · interval_cases k <;> rfl
  · rfl

/-- Witness for the amended C6 at a table holding the first 10 of the 15
schema columns. -/
theorem append_repairs_prefix_header_witness :
    write_to_csv ([] : Record)
        (some { header := get_required_fields.take 10,
                rows := ([] : List (List String)) })
        = { header := get_required_fields,
            rows := ([] : List (List String)).map
                (fun r => r ++ List.replicate (15 - 10) sentinelStr)
              ++ [flattenRow ([] : Record)] }
      ∧ (flattenRow ([] : Record)).length = get_required_fields.length :=
  append_repairs_prefix_header 10 (by decide) [] []

/-- Fold a sequence of records through `write_to_csv` against the same path,
starting from the given file state. -/
def write_all (rs : List Record) (fs : Option CsvFile) : Option CsvFile :=
  rs.foldl (fun acc r => some (write_to_csv r acc)) fs

theorem write_to_csv_complete_header (r : Record) (rows : List (List String)) :
    write_to_csv r (some { header := get_required_fields, rows := rows })
      = { header := get_required_fields, rows := rows ++ [flattenRow r] } := rfl

theorem write_all_from (rs : List Record) (rows : List (List String)) :
    write_all rs (some { header := get_required_fields, rows := rows })
      = some { header := get_required_fields, rows := rows ++ rs.map flattenRow } := by
  induction rs generalizing rows with
  | nil => simp [write_all]
  | cons r rest ih =>
    rw [show write_all (r :: rest) (some { header := get_required_fields, rows := rows })
        = write_all rest
            (some (write_to_csv r (some { header := get_required_fields, rows := rows })))
      from rfl]
    rw [write_to_csv_complete_header, ih]
    simp

/-- C7: `write_to_csv` never drops or rewrites a record — appending N records
to a freshly created table yields exactly the N flattened rows, in order,
with every earlier row left exactly as written. -/
theorem write_to_csv_appends_exactly (rs : List Record) :
    write_all rs (some (ensure_csv_structure none))
      = some { header := get_required_fields, rows := rs.map flattenRow } := by
  rw [ensure_none_eq, write_all_from]
  simp

/-- Python `d.get(key)` on the flattened string-valued dict. -/
def lookupStr (l : List (String × String)) (k : String) : Option String :=
  (l.find? (fun p => p.fst == k)).map (fun p => p.snd)

theorem dictGet?_eq_none_of_not_contains (r : Record) (k : String)
    (h : dictContains r k = false) : dictGet? r k = none := by
  have hf : r.find? (fun p => p.fst == k) = none := by
    rw [List.find?_eq_none]
    intro p hp hbeq
    have : r.any (fun p => p.fst == k) = true := List.any_of_mem hp hbeq
    rw [dictContains] at h
    rw [h] at this
    cases this
  simp [dictGet?, hf]

theorem map_fst_map_pair (l : List String) (f : String → String) :
    (l.map (fun x => (x, f x))).map Prod.fst = l := by
  induction l with
  | nil => rfl
  | cons a t ih => simp [ih]

theorem lookupStr_map_self (l : List String) (f : String → String) (k : String)
    (hk : k ∈ l) :
    lookupStr (l.map (fun x => (x, f x))) k = some (f k) := by
  induction l with
  | nil => cases hk
  | cons a t ih =>
    rcases List.mem_cons.mp hk with rfl | hk2
    · simp [lookupStr]
    · by_cases hak : a = k
      · subst hak
        simp [lookupStr]
      · have hbeq : (a == k) = false := by simpa using hak
        simp only [lookupStr, List.map_cons, List.find?_cons, hbeq]
        exact ih hk2

/-- C10: the flattened form of any record has exactly the 15 Field Schema
keys, in schema order — extra keys such as the `error` indicator are dropped
and never reach the table — and every schema key absent from the record is
written as the sentinel. -/
theorem flatten_exact_schema_keys (r : Record) :
    (flattenDict r).map Prod.fst = get_required_fields
      ∧ (((flattenDict r).map Prod.fst).contains "error") = false
      ∧ (get_required_fields.all
          (fun k => dictContains r k
            || (lookupStr (flattenDict r) k == some sentinelStr)) = true) := by
  have hkeys : (flattenDict r).map Prod.fst = get_required_fields :=
    map_fst_map_pair get_required_fields _
  refine ⟨hkeys, by rw [hkeys]; rfl, ?_⟩
  rw [List.all_eq_true]
  intro k hk
  by_cases hc : dictContains r k = true
  · simp [hc]
  · have hcf : dictContains r k = false := by simpa using hc
    have hget : dictGet? r k = none := dictGet?_eq_none_of_not_contains r k hcf
    have hl : lookupStr (flattenDict r) k
        = some (flattenCell ((dictGet? r k).getD (Jval.str sentinelStr))) :=
      lookupStr_map_self get_required_fields _ k hk
    rw [hget] at hl
    have hval : flattenCell ((none : Option Jval).getD (Jval.str sentinelStr))
        = sentinelStr := rfl
    rw [hval] at hl
    simp [hl]

theorem processListGo_calls (oracle : Nat → Nat → AttemptOutcome) (names : List String) :
    ∀ (idx : Nat) (summ : Summary) (st : Store) (calls : List String),
      (processListGo oracle names idx summ st calls).snd.snd
        = calls ++ (names.map pyStrip).filter (fun s => s != "") := by
  induction names with
  | nil => intro idx summ st calls; simp [processListGo]
  | cons n rest ih =>
    intro idx summ st calls
    by_cases hn : (pyStrip n == "") = true
    · have hn' : pyStrip n = "" := by simpa using hn
      simp only [processListGo]
      rw [if_pos hn, ih]
      simp [hn']
    · have hn' : ¬ pyStrip n = "" := by simpa using hn
      simp only [processListGo]
      rw [if_neg hn, ih]
      simp [hn']

theorem processListGo_details (oracle : Nat → Nat → AttemptOutcome) (names : List String) :
    ∀ (idx : Nat) (summ : Summary) (st : Store) (calls : List String),
      (processListGo oracle names idx summ st calls).fst.details.map
          (fun d => d.projectName)
        = summ.details.map (fun d => d.projectName)
            ++ (names.map pyStrip).filter (fun s => s != "") := by
  induction names with
  | nil => intro idx summ st calls; simp [processListGo]
  | cons n rest ih =>
    intro idx summ st calls
    by_cases hn : (pyStrip n == "") = true
    · have hn' : pyStrip n = "" := by simpa using hn
      simp only [processListGo]
      rw [if_pos hn, ih]
      simp [hn']
    · have hn' : ¬ pyStrip n = "" := by simpa using hn
      simp only [processListGo]
      rw [if_neg hn, ih]
      by_cases hs1 : ((process_single_project (pyStrip n) (oracle idx) st).fst.status
          == "success") = true
      · rw [if_pos hs1]
        simp [hn']
      · rw [if_neg hs1]
        by_cases hs2 : ((process_single_project (pyStrip n) (oracle idx) st).fst.status
            == "partial") = true
        · rw [if_pos hs2]
          simp [hn']
        · rw [if_neg hs2]
          simp [hn']

theorem processListGo_counts (oracle : Nat → Nat → AttemptOutcome) (names : List String) :
    ∀ (idx : Nat) (summ : Summary) (st : Store) (calls : List String),
      (processListGo oracle names idx summ st calls).fst.succCount
          + (processListGo oracle names idx summ st calls).fst.partCount
          + (processListGo oracle names idx summ st calls).fst.failCount
        = summ.succCount + summ.partCount + summ.failCount
            + ((names.map pyStrip).filter (fun s => s != "")).length := by
  induction names with
  | nil => intro idx summ st calls; simp [processListGo]
  | cons n rest ih =>
    intro idx summ st calls
    by_cases hn : (pyStrip n == "") = true
    · have hn' : pyStrip n = "" := by simpa using hn
      simp only [processListGo]
      rw [if_pos hn, ih]
      simp [hn']
    · have hn' : ¬ pyStrip n = "" := by simpa using hn
      simp only [processListGo]
      rw [if_neg hn, ih]
      by_cases hs1 : ((process_single_project (pyStrip n) (oracle idx) st).fst.status
          == "success") = true
      · rw [if_pos hs1]
        simp [hn']
        omega
      · rw [if_neg hs1]
        by_cases hs2 : ((process_single_project (pyStrip n) (oracle idx) st).fst.status
            == "partial") = true
        · rw [if_pos hs2]
          simp [hn']
          omega
        · rw [if_neg hs2]
          simp [hn']
          omega

/-- C9: the batch orchestrator processes every name whose stripped form is
non-empty, in input order and with duplicates preserved — one acquisition
call and one detail entry per such name — and the three outcome counters sum
to the number of names processed. -/
theorem process_project_list_counts (names : List String)
    (oracle : Nat → Nat → AttemptOutcome) (st : Store) :
    (process_project_list names oracle st).snd.snd
        = (names.map pyStrip).filter (fun s => s != "")
      ∧ (process_project_list names oracle st).fst.details.map (fun d => d.projectName)
        = (names.map pyStrip).filter (fun s => s != "")
      ∧ (process_project_list names oracle st).fst.succCount
          + (process_project_list names oracle st).fst.partCount
          + (process_project_list names oracle st).fst.failCount
        = ((names.map pyStrip).filter (fun s => s != "")).length := by
  refine ⟨?_, ?_, ?_⟩
  · simp only [process_project_list]
    rw [processListGo_calls]
    simp
  · simp only [process_project_list]
    rw [processListGo_details]
    simp
  · simp only [process_project_list]
    rw [processListGo_counts]
    simp
